import Mathlib

/-!
Verification of the insurance-brokerage backend's document-storage service,
secure document proxy routes, and database connection-resilience wrapper.

The development shallowly embeds the TypeScript sources:
  * `src/services/storage.ts`   (class `BlobStorageService`)
  * `src/routes/documents.ts`   (secure/public proxy and token endpoints)
  * `src/config/database.ts`    (`getConnection` / `ensureConnection`)
The filesystem and the Azure blob store are modelled as association lists
from path strings to byte lists; asynchronous outcomes (connect attempts,
liveness queries, HTTP fetches) are supplied by explicit oracles.
-/

deriving instance DecidableEq for Except

namespace InsuranceBackend

/-! ### Character-list string helpers (JS string semantics) -/

/-- Drop the given lead word from a character list, or fail. -/
def dropLead : List Char → List Char → Option (List Char)
  | [], l => some l
  | _ :: _, [] => none
  | a :: as, b :: bs => if a = b then dropLead as bs else none

/-- Does the second list begin with the first? -/
def leadsWith (p l : List Char) : Bool := (dropLead p l).isSome

/-- JS `String.prototype.startsWith`. -/
def strStartsWith (p s : String) : Bool := leadsWith p.data s.data

/-- Characters up to (excluding) the first `'?'`; models stripping a URL query. -/
def takeUntilQ : List Char → List Char
  | [] => []
  | c :: cs => if c = '?' then [] else c :: takeUntilQ cs

/-- JS `String.prototype.split` with a one-character separator (auxiliary). -/
def splitOnCharAux (sep : Char) : List Char → List Char → List (List Char)
  | [], acc => [acc.reverse]
  | c :: cs, acc =>
    if c = sep then acc.reverse :: splitOnCharAux sep cs []
    else splitOnCharAux sep cs (c :: acc)

/-- JS `String.prototype.split` with a one-character separator. -/
def jsSplit (sep : Char) (s : String) : List String :=
  (splitOnCharAux sep s.data []).map String.mk

/-- Leading decimal digits of a character list. -/
def leadDigits (l : List Char) : List Char := l.takeWhile Char.isDigit

/-- Value of a digit list (most significant first). -/
def digitsVal (l : List Char) : Nat :=
  l.foldl (fun a c => a * 10 + (c.toNat - '0'.toNat)) 0

/-- JS `parseInt(s, 10)`: skip whitespace, optional sign, then the longest
digit run; `none` models `NaN` (no digits at all). A merely digit-led string
such as `"123abc"` parses to `123`. -/
def parseInt10 (s : String) : Option Int :=
  let l := s.data.dropWhile Char.isWhitespace
  match l with
  | '-' :: rest =>
    if leadDigits rest = [] then none else some (-(digitsVal (leadDigits rest) : Int))
  | '+' :: rest =>
    if leadDigits rest = [] then none else some (digitsVal (leadDigits rest) : Int)
  | rest =>
    if leadDigits rest = [] then none else some (digitsVal (leadDigits rest) : Int)

/-- Association-list lookup keyed by strings. -/
def assocLookup (l : List (String × List Nat)) (k : String) : Option (List Nat) :=
  match l with
  | [] => none
  | (k', v) :: rest => if k' = k then some v else assocLookup rest k

/-- Remove every entry with the given key. -/
def assocRemove (l : List (String × List Nat)) (k : String) : List (String × List Nat) :=
  l.filter (fun e => e.1 ≠ k)

/-! ### Small lemmas about the helpers -/

theorem dropLead_append (l r : List Char) : dropLead l (l ++ r) = some r := by
  induction l with
  | nil => rfl
  | cons a as ih => simp [dropLead, ih]

theorem strDataAppend (a b : String) : (a ++ b).data = a.data ++ b.data := by
  cases a; cases b; rfl

theorem mkData (s : String) : String.mk s.data = s := by cases s; rfl

theorem takeUntilQ_append (l r : List Char) (h : ∀ ch ∈ l, ch ≠ '?') :
    takeUntilQ (l ++ '?' :: r) = l := by
  induction l with
  | nil => simp [takeUntilQ]
  | cons a as ih =>
    have ha : a ≠ '?' := h a (by simp)
    simp [takeUntilQ, ha]
    exact ih (fun ch hm => h ch (by simp [hm]))

theorem drop_append_self (l r : List Char) : (l ++ r).drop l.length = r :=
  List.drop_left l r

theorem assocLookup_cons_self (k : String) (v : List Nat) (rest : List (String × List Nat)) :
    assocLookup ((k, v) :: rest) k = some v := by
  simp [assocLookup]

theorem assocLookup_remove_self (l : List (String × List Nat)) (k : String) :
    assocLookup (assocRemove l k) k = none := by
  induction l with
  | nil => rfl
  | cons e rest ih =>
    by_cases hk : e.1 = k
    · simpa [assocRemove, hk] using ih
    · cases e with
      | mk k' v => simp_all [assocRemove, assocLookup]

/-! ### Storage model (src/services/storage.ts, class BlobStorageService)

The constructor falls back to local mode whenever no connection string is
present or the Azure client fails to construct, so in cloud mode the
`blobServiceClient` is always initialized; the `!this.blobServiceClient`
throw branches are therefore unreachable and are not modelled. -/

/-- Storage backend mode selected at construction. -/
inductive Mode
  | loc
  | cloud
deriving DecidableEq

/-- The world the service manipulates: the local filesystem and the blob
container, each a finite map from path to byte content. -/
structure Storage where
  files : List (String × List Nat)
  blobs : List (String × List Nat)
deriving DecidableEq

/-- `this.localStoragePath` in the source. -/
def localStorageRoot : String := "./uploads"

/-- Join path segments with `/` (auxiliary of `pathJoin`). -/
def joinSegs : List String → String
  | [] => ""
  | [s] => s
  | s :: rest => s ++ "/" ++ joinSegs rest

/-- Node's `path.join` normalizes a leading `./` away
(e.g. `path.join('./uploads', c) = 'uploads/' + c`). -/
def stripDotSlash (s : String) : String :=
  if leadsWith "./".data s.data then String.mk (s.data.drop 2) else s

/-- Node `path.join` for the segment shapes occurring in the source: join
with `/` and normalize a leading `./`. -/
def pathJoin (parts : List String) : String := stripDotSlash (joinSegs parts)

/-- The logical blob key `clientId/documentType/fileName`. -/
def blobPathOf (clientId documentType fileName : String) : String :=
  clientId ++ "/" ++ documentType ++ "/" ++ fileName

def fsLookup (st : Storage) (p : String) : Option (List Nat) := assocLookup st.files p

/-- `fs.existsSync` on a file path. -/
def fsExists (st : Storage) (p : String) : Bool := (fsLookup st p).isSome

def blobLookup (st : Storage) (p : String) : Option (List Nat) := assocLookup st.blobs p

/-- `blobClient.exists()`. -/
def blobExists (st : Storage) (p : String) : Bool := (blobLookup st p).isSome

/-- A key sits immediately or transitively under the directory. -/
def underDir (dir key : String) : Bool := leadsWith (dir ++ "/").data key.data

/-- `fs.existsSync` on a directory: some stored file lives under it. -/
def dirExists (st : Storage) (dir : String) : Bool :=
  st.files.any (fun e => underDir dir e.1)

/-- `fs.readdirSync dir`: names of the immediate children of the directory. -/
def dirFiles (st : Storage) (dir : String) : List String :=
  st.files.filterMap (fun e =>
    match dropLead (dir ++ "/").data e.1.data with
    | none => none
    | some rest => if rest.contains '/' then none else some (String.mk rest))

/-- Base of every blob URL the model mints:
`https://{account}.blob.core.windows.net/{container}/`. -/
def blobUrlBase : String := "https://account.blob.core.windows.net/customer-documents/"

/-- `blockBlobClient.url` for a blob path. -/
def blobUrlOf (blobPath : String) : String := blobUrlBase ++ blobPath

/-- A SAS URL as minted by `blobClient.generateSasUrl`: the blob URL plus a
query string carrying the permissions (`"r"` = read-only) and the expiry
instant in ms. -/
def mkSasUrl (blobPath : String) (expiresOnMs : Nat) (permissions : String) : String :=
  blobUrlBase ++ (blobPath ++ ("?" ++ ("sv=model&sp=" ++ permissions ++ "&se=" ++ toString expiresOnMs)))

/-- Recover the blob path from a URL of the `mkSasUrl`/`blobUrlOf` shape:
drop the base, strip the query. Used to give SAS URLs read semantics. -/
def sasBlobPath (url : String) : String :=
  String.mk (takeUntilQ (url.data.drop blobUrlBase.length))

/-- Reading what a resolved URL/path denotes: an `http(s)` URL reads the blob
it points at, anything else is a local filesystem path. -/
def readUrl (st : Storage) (url : String) : Option (List Nat) :=
  if strStartsWith "http" url then blobLookup st (sasBlobPath url)
  else fsLookup st url

/-- Errors thrown inside the service; every public method wraps them. -/
inductive StorageErr
  | fileNotFound (msg : String)
  | wrapped (msg : String)
deriving DecidableEq

structure UploadOut where
  url : String
  path : String
deriving DecidableEq

/-- `BlobStorageService.uploadFile` (storage.ts:230-293). Local mode writes
the bytes under `root/clientId/documentType/fileName`; cloud mode uploads the
blob under the logical key. The model treats filesystem and network writes as
succeeding, so the catch-wrap to `'Failed to upload file to storage'` never
fires. -/
def uploadFile (mode : Mode) (st : Storage)
    (clientId documentType fileName : String) (fileContent : List Nat)
    (_contentType : String) : (Except StorageErr UploadOut) × Storage :=
  let blobPath := blobPathOf clientId documentType fileName
  match mode with
  | .loc =>
    let fullPath := pathJoin [localStorageRoot, clientId, documentType, fileName]
    (.ok ⟨fullPath, blobPath⟩, { st with files := (fullPath, fileContent) :: st.files })
  | .cloud =>
    (.ok ⟨blobUrlOf blobPath, blobPath⟩, { st with blobs := (blobPath, fileContent) :: st.blobs })

/-- Body of the `try` in `BlobStorageService.generateSecureUrl`
(storage.ts:299-392), before the catch-all rewrap. Local mode returns the
file path if it exists; cloud mode checks the blob and, when it is absent,
runs the degraded fallback search over local files. -/
def generateSecureUrlCore (mode : Mode) (st : Storage)
    (clientId documentType fileName : String)
    (expirySeconds nowMs : Nat) : Except StorageErr String :=
  let blobPath := blobPathOf clientId documentType fileName
  match mode with
  | .loc =>
    let fullPath := pathJoin [localStorageRoot, clientId, documentType, fileName]
    if fsExists st fullPath then .ok fullPath
    else .error (.fileNotFound "File not found")
  | .cloud =>
    if blobExists st blobPath then
      .ok (mkSasUrl blobPath (nowMs + expirySeconds * 1000) "r")
    else
      let localPath := pathJoin [localStorageRoot, clientId, documentType, fileName]
      if fsExists st localPath then .ok localPath
      else
        let uploadsPath := pathJoin ["uploads", clientId, documentType, fileName]
        if fsExists st uploadsPath then .ok uploadsPath
        else
          let clientDocTypeDir := pathJoin ["uploads", clientId, documentType]
          if dirExists st clientDocTypeDir then
            match dirFiles st clientDocTypeDir with
            | [] => .error (.fileNotFound ("File not found: " ++ fileName))
            | firstFile :: _ => .ok (pathJoin [clientDocTypeDir, firstFile])
          else .error (.fileNotFound ("File not found: " ++ fileName))

/-- `BlobStorageService.generateSecureUrl` as callers see it: the catch block
(storage.ts:393-396) rethrows every failure as the one generic error. -/
def generateSecureUrl (mode : Mode) (st : Storage)
    (clientId documentType fileName : String)
    (expirySeconds nowMs : Nat) : Except StorageErr String :=
  match generateSecureUrlCore mode st clientId documentType fileName expirySeconds nowMs with
  | .ok url => .ok url
  | .error _ => .error (.wrapped "Failed to generate secure access URL")

/-- Does a filename embed path separators (storage.ts:424)? -/
def hasSep (fileName : String) : Bool :=
  fileName.data.contains '/' || fileName.data.contains '\\'

/-- Last `/`- or `\\`-delimited segment (`split(/[\/\\]/).pop() || ''`). -/
def lastSegment (s : String) : String :=
  (jsSplit '/' ((jsSplit '\\' s).getLastD "")).getLastD ""

/-- `BlobStorageService.deleteFile` (storage.ts:402-468). Returns whether a
deletion occurred. Filesystem and network deletes are modelled as
succeeding, so the catch-wrap never fires. -/
def deleteFile (mode : Mode) (st : Storage)
    (clientId documentType fileName : String) : (Except StorageErr Bool) × Storage :=
  match mode with
  | .loc =>
    let fullPath := pathJoin [localStorageRoot, clientId, documentType, fileName]
    if fsExists st fullPath then
      (.ok true, { st with files := assocRemove st.files fullPath })
    else if hasSep fileName then
      let cleanFileName := lastSegment fileName
      let altPath := pathJoin [localStorageRoot, clientId, documentType, cleanFileName]
      if fsExists st altPath then
        (.ok true, { st with files := assocRemove st.files altPath })
      else (.ok false, st)
    else (.ok false, st)
  | .cloud =>
    let blobPath := blobPathOf clientId documentType fileName
    if blobExists st blobPath then
      (.ok true, { st with blobs := assocRemove st.blobs blobPath })
    else (.ok false, st)

/-! ### Spec-shaped degraded fallback (for comparison with the code) -/

/-- First defined element of a strategy list. -/
def firstSome : List (Option String) → Option String
  | [] => none
  | some x :: _ => some x
  | none :: rest => firstSome rest

/-- The degraded fallback search written the way the spec words it: an
ordered list of strategies — the equivalent local path, then the same-named
file under the local client/docType directory, then any file at all in that
directory — evaluated in sequence. -/
def specFallbackStrategies (st : Storage) (clientId documentType fileName : String) :
    List (Option String) :=
  [ (let p := pathJoin [localStorageRoot, clientId, documentType, fileName]
     if fsExists st p then some p else none),
    (let p := pathJoin ["uploads", clientId, documentType, fileName]
     if fsExists st p then some p else none),
    (let dir := pathJoin ["uploads", clientId, documentType]
     match dirFiles st dir with
     | [] => none
     | f :: _ => some (pathJoin [dir, f])) ]

/-- Cloud-mode resolution as the spec describes it: verify blob existence;
on absence run the strategy chain, returning the first match; fail as
not-found only when nothing is found anywhere; on the blob existing mint a
read-only, time-boxed signed URL. -/
def specDegradedResolve (st : Storage) (clientId documentType fileName : String)
    (expirySeconds nowMs : Nat) : Except StorageErr String :=
  if blobExists st (blobPathOf clientId documentType fileName) then
    .ok (mkSasUrl (blobPathOf clientId documentType fileName) (nowMs + expirySeconds * 1000) "r")
  else
    match firstSome (specFallbackStrategies st clientId documentType fileName) with
    | some p => .ok p
    | none => .error (.fileNotFound ("File not found: " ++ fileName))

/-! ### Database connection wrapper model (src/config/database.ts)

The pool's connect attempts are asynchronous; the model feeds their outcomes
through an oracle: `oracle k` is the result of the `k`-th `pool.connect()`
call made by one `getConnection` invocation. `DbState` is the module-level
mutable trio `isConnected` / `connectionError` / `connectionPromise`; the
cached promise is carried together with its eventual outcome. -/

/-- An error from the SQL layer. The `transient` flag classifies it as a
network/timeout/deadlock-class error; the code never inspects it. -/
structure DbErr where
  msg : String
  transient : Bool
deriving DecidableEq

/-- Fallback error thrown when the loop ends without a recorded error. -/
def defaultConnectErr : DbErr :=
  ⟨"Failed to connect to database after multiple attempts", false⟩

structure DbState where
  isConnected : Bool
  connectionError : Option DbErr
  connectionPromise : Option (Except DbErr Unit)
deriving DecidableEq

/-- Result of a `getConnection` call: the returned/raised value, the final
module state, how many `pool.connect()` calls were made, and the backoff
delays waited between consecutive attempts. -/
structure GcOut where
  result : Except DbErr Unit
  state : DbState
  attemptsStarted : Nat
  delays : List Nat
deriving DecidableEq

def isErr : Except DbErr Unit → Bool
  | .error _ => true
  | .ok _ => false

def errOf : Except DbErr Unit → DbErr
  | .error e => e
  | .ok _ => defaultConnectErr

/-- The retry loop of `getConnection` (database.ts:69-104). Each iteration
stores the fresh in-flight promise, awaits it, and either records success or
records the failure and sleeps `delay` (doubling it) before the next
attempt; after the last failed attempt the cached promise is cleared and the
last error is thrown. -/
def connectLoop (oracle : Nat → Except DbErr Unit) :
    Nat → Nat → Option DbErr → DbState → GcOut
  | 0, _, lastErr, s =>
    ⟨.error (lastErr.getD defaultConnectErr), { s with connectionPromise := none }, 0, []⟩
  | rem + 1, delay, _, _ =>
    match oracle 0 with
    | .ok _ => ⟨.ok (), ⟨true, none, some (.ok ())⟩, 1, []⟩
    | .error e =>
      if rem = 0 then ⟨.error e, ⟨false, some e, none⟩, 1, []⟩
      else
        let rest := connectLoop (fun i => oracle (i + 1)) rem (delay * 2) (some e)
          ⟨false, some e, some (.error e)⟩
        ⟨rest.result, rest.state, rest.attemptsStarted + 1, delay :: rest.delays⟩

/-- `getConnection(retries = 3, delay = 1000)` (database.ts:53-105): return
the pool at once when connected and error-free; await a cached in-flight
promise when present, falling through to the retry loop when that promise
failed; otherwise run the retry loop. -/
def getConnection (retries delay : Nat) (oracle : Nat → Except DbErr Unit)
    (s : DbState) : GcOut :=
  if s.isConnected = true ∧ s.connectionError = none then ⟨.ok (), s, 0, []⟩
  else
    match s.connectionPromise with
    | some (.ok _) => ⟨.ok (), s, 0, []⟩
    | some (.error _) => connectLoop oracle retries delay none { s with connectionPromise := none }
    | none => connectLoop oracle retries delay none s

/-- `ensureConnection()` (database.ts:116-132): `getConnection()` with its
defaults, then a `SELECT 1` liveness query (outcome `queryErr`); any failure
forces `disconnected`, records the error, clears the cached promise and
rethrows. -/
def ensureConnection (oracle : Nat → Except DbErr Unit) (queryErr : Option DbErr)
    (s : DbState) : (Except DbErr Unit) × DbState :=
  let g := getConnection 3 1000 oracle s
  match g.result with
  | .error e => (.error e, ⟨false, some e, none⟩)
  | .ok _ =>
    match queryErr with
    | none => (.ok (), g.state)
    | some e => (.error e, ⟨false, some e, none⟩)

/-- Expected backoff delays: `k` waits starting at `d` and doubling. -/
def geomDelays (d : Nat) : Nat → List Nat
  | 0 => []
  | k + 1 => d :: geomDelays (d * 2) k

/-! ### Event-loop interleaving model of concurrent getConnection calls

JavaScript's event loop runs each async function synchronously between
`await` points. A caller of `getConnection` (database.ts:53-105) is modelled
as a small state machine whose transitions are exactly those synchronous
blocks; connect attempts are identified by the order they were started, and
a scheduler event either steps one caller or resolves one in-flight attempt.
`retriesConst`/`delayConst` are the parameter defaults. -/

def retriesConst : Nat := 3

def delayConst : Nat := 1000

inductive CallerPhase
  | ready
  | awaitingShared (a : Nat)
  | awaitingOwn (a : Nat) (remaining : Nat) (delay : Nat)
  | sleeping (remaining : Nat) (delay : Nat)
  | done (ok : Bool)
deriving DecidableEq

/-- The shared module state plus the per-caller control points. `started`
counts `pool.connect()` calls ever made; `resolved` records the outcomes
delivered so far. -/
structure PoolSys where
  callers : List CallerPhase
  promiseVal : Option Nat
  started : Nat
  resolved : List (Nat × Bool)
  isConnected : Bool
  hasError : Bool
deriving DecidableEq

/-- Outcome delivered for an attempt, if any yet. -/
def lookupRes : List (Nat × Bool) → Nat → Option Bool
  | [], _ => none
  | (k, b) :: rest, a => if k = a then some b else lookupRes rest a

/-- Start a fresh `pool.connect()` and cache it in `connectionPromise`. -/
def startAttempt (s : PoolSys) : Nat × PoolSys :=
  (s.started, { s with started := s.started + 1, promiseVal := some s.started })

/-- One synchronous block of one caller: from its current control point up
to its next `await` (or return). Callers blocked on an unresolved attempt do
not move. -/
def stepCaller (s : PoolSys) (ph : CallerPhase) : CallerPhase × PoolSys :=
  match ph with
  | .ready =>
    if s.isConnected && !s.hasError then (.done true, s)
    else
      match s.promiseVal with
      | some p => (.awaitingShared p, s)
      | none =>
        let (a, s') := startAttempt s
        (.awaitingOwn a (retriesConst - 1) delayConst, s')
  | .awaitingShared p =>
    match lookupRes s.resolved p with
    | none => (ph, s)
    | some true => (.done true, s)
    | some false =>
      let s1 := { s with promiseVal := none }
      let (a, s2) := startAttempt s1
      (.awaitingOwn a (retriesConst - 1) delayConst, s2)
  | .awaitingOwn a rem d =>
    match lookupRes s.resolved a with
    | none => (ph, s)
    | some true => (.done true, { s with isConnected := true, hasError := false })
    | some false =>
      let s1 := { s with isConnected := false, hasError := true }
      if rem = 0 then (.done false, { s1 with promiseVal := none })
      else (.sleeping rem d, s1)
  | .sleeping rem d =>
    let (a, s') := startAttempt s
    (.awaitingOwn a (rem - 1) (d * 2), s')
  | .done b => (.done b, s)

inductive PoolEv
  | step (i : Nat)
  | resolve (a : Nat) (ok : Bool)
deriving DecidableEq

/-- Apply one scheduler event. A `resolve` is valid only for a started,
still-unresolved attempt; anything else is a no-op. -/
def applyEv (s : PoolSys) : PoolEv → PoolSys
  | .step i =>
    match s.callers[i]? with
    | none => s
    | some ph =>
      let (ph', s') := stepCaller s ph
      { s' with callers := s'.callers.set i ph' }
  | .resolve a ok =>
    if a < s.started ∧ lookupRes s.resolved a = none then
      { s with resolved := (a, ok) :: s.resolved }
    else s

def runEvents (s : PoolSys) : List PoolEv → PoolSys
  | [] => s
  | e :: rest => runEvents (applyEv s e) rest

/-- Attempts started but not yet resolved. -/
def inFlight (s : PoolSys) : Nat := s.started - s.resolved.length

/-- `n` concurrent callers issued while the pool is disconnected. -/
def initSys (n : Nat) : PoolSys := ⟨List.replicate n .ready, none, 0, [], false, false⟩

/-- A schedule event that is not a failed resolution. -/
def evOk : PoolEv → Bool
  | .resolve _ false => false
  | _ => true

/-! ### Secure document proxy and public token endpoints (src/routes/documents.ts) -/

/-- Outcome of `fetch(url)` in the proxy. -/
inductive FetchOutcome
  | success (contentType : String) (body : List Nat)
  | httpError (status : Nat)
  | networkError (msg : String)
deriving DecidableEq

/-- The response the route hands back: status, the JSON `message` or served
content type, and the body bytes when a document is served. -/
structure HttpRes where
  status : Nat
  tag : String
  body : Option (List Nat)
deriving DecidableEq

/-- `path.extname(p).toLowerCase()`: the extension of the last segment. -/
def extnameLower (p : String) : String :=
  let base := (jsSplit '/' p).getLastD ""
  let rev := base.data.reverse
  let ext := rev.takeWhile (fun c => c ≠ '.')
  if ext.length = rev.length then ""
  else String.mk ('.' :: (ext.reverse.map Char.toLower))

/-- Content type inferred from the extension (documents.ts:236-242). -/
def contentTypeFor (p : String) : String :=
  let ext := extnameLower p
  if ext = ".pdf" then "application/pdf"
  else if ext = ".png" then "image/png"
  else if ext = ".jpg" ∨ ext = ".jpeg" then "image/jpeg"
  else if ext = ".gif" then "image/gif"
  else "application/octet-stream"

/-- `GET /secure/:clientId/:documentType/:filename` (documents.ts:206-302):
resolve through `generateSecureUrl`; serve a local path directly (404 when
the file vanished), proxy an `http` URL via `fetch` (forwarding a non-ok
upstream status, 500 on a fetch exception), and 500 when resolution threw. -/
def secureDocumentHandler (mode : Mode) (st : Storage)
    (clientId documentType filename : String) (nowMs : Nat)
    (fetch : String → FetchOutcome) : HttpRes :=
  match generateSecureUrl mode st clientId documentType filename (15 * 60) nowMs with
  | .error _ => ⟨500, "Error generating secure URL", none⟩
  | .ok url =>
    if !strStartsWith "http" url then
      match fsLookup st url with
      | none => ⟨404, "Document not found", none⟩
      | some bytes => ⟨200, contentTypeFor url, some bytes⟩
    else
      match fetch url with
      | .success ct body => ⟨200, ct, some body⟩
      | .httpError status => ⟨status, "Document not found", none⟩
      | .networkError _ => ⟨500, "Error retrieving document content", none⟩

/-- Outcome of the public endpoint's token validation (documents.ts:350-371).
All three rejections answer HTTP 403. -/
inductive TokenCheck
  | invalidToken
  | invalidFormat
  | expired
  | ok (ts : Int)
deriving DecidableEq

def tokenWindowMs : Int := 30 * 60 * 1000

/-- Token validation of `GET /public/:token/...`: reject empty or short
tokens, then wrong underscore-segment counts, then a `NaN` or stale
timestamp; only what survives proceeds to document resolution. -/
def validateToken (token : String) (nowMs : Int) : TokenCheck :=
  if token = "" ∨ token.length < 20 then .invalidToken
  else
    let parts := jsSplit '_' token
    if parts.length ≠ 2 then .invalidFormat
    else
      match parseInt10 (parts.headD "") with
      | none => .expired
      | some ts => if nowMs - ts > tokenWindowMs then .expired else .ok ts

/-- `GET /token/...` (documents.ts:594-618) mints
`` `${Date.now()}_${Math.random().toString(36).substring(2, 15)}` ``. -/
def mintToken (nowMs : Nat) (randomSuffix : String) : String :=
  toString nowMs ++ "_" ++ randomSuffix

/-- Base-36 digit character. -/
def base36Char (n : Nat) : Char :=
  if n < 10 then Char.ofNat ('0'.toNat + n) else Char.ofNat ('a'.toNat + (n - 10))

/-- Base-36 digits of the fraction `num / den`, most significant first,
terminating when the remainder vanishes (fuel-bounded). -/
def base36Frac : Nat → Nat → Nat → List Char
  | 0, _, _ => []
  | fuel + 1, num, den =>
    if num = 0 then []
    else base36Char (num * 36 / den) :: base36Frac fuel (num * 36 % den) den

/-- `Math.random().toString(36)` where the random draw is `k / 2^53`
(doubles in `[0, 1)` drawn by V8 have 53 random bits). -/
def jsRandomToString36 (k : Nat) : String :=
  if k = 0 then "0" else String.mk ('0' :: '.' :: base36Frac 64 k (2 ^ 53))

/-- JS `String.prototype.substring(start, stop)`. -/
def jsSubstring (s : String) (start stop : Nat) : String :=
  String.mk ((s.data.drop start).take (stop - start))

/-- The random suffix the token endpoint computes from the draw `k`. -/
def randomSuffixOf (k : Nat) : String := jsSubstring (jsRandomToString36 k) 2 15

/-- Fully numeric (digit-only, nonempty) string, the spec's reading of a
"numeric" token timestamp segment. -/
def isNumericSeg (s : String) : Bool := s ≠ "" && s.data.all Char.isDigit

/-! ### Facts about the modelled paths and URLs -/

theorem stripDot_uploads (X : String) :
    stripDotSlash ("./uploads" ++ "/" ++ X) = String.mk ("uploads/".data ++ X.data) := by
  have h2 : "./uploads".data ++ "/".data = '.' :: '/' :: "uploads/".data := by decide
  have h : ("./uploads" ++ "/" ++ X).data = '.' :: '/' :: ("uploads/".data ++ X.data) := by
    rw [strDataAppend, strDataAppend, h2]
    simp
  simp [stripDotSlash, h, leadsWith, dropLead]

theorem pathJoin_local_eq (c d f : String) :
    pathJoin [localStorageRoot, c, d, f]
      = String.mk ("uploads/".data ++ (c ++ "/" ++ (d ++ "/" ++ f)).data) := by
  show stripDotSlash ("./uploads" ++ "/" ++ (c ++ "/" ++ (d ++ "/" ++ f))) = _
  exact stripDot_uploads _

theorem not_http_of_uploads (l : List Char) :
    strStartsWith "http" (String.mk ("uploads/".data ++ l)) = false := by
  have h : "uploads/".data ++ l = 'u' :: ("ploads/".data ++ l) := by
    show ('u' :: "ploads/".data) ++ l = _
    simp
  simp [strStartsWith, h, leadsWith, dropLead]

theorem sas_is_http (bp : String) (e : Nat) (p : String) :
    strStartsWith "http" (mkSasUrl bp e p) = true := by
  have hb : "https://account.blob.core.windows.net/customer-documents/".data
      = 'h' :: 't' :: 't' :: 'p' :: "s://account.blob.core.windows.net/customer-documents/".data := by
    decide
  have h : (mkSasUrl bp e p).data
      = 'h' :: 't' :: 't' :: 'p' :: ("s://account.blob.core.windows.net/customer-documents/".data
          ++ (bp ++ ("?" ++ ("sv=model&sp=" ++ p ++ "&se=" ++ toString e))).data) := by
    unfold mkSasUrl blobUrlBase
    rw [strDataAppend, hb]
    simp
  simp [strStartsWith, h, leadsWith, dropLead]

theorem sasBlobPath_mkSasUrl (bp : String) (e : Nat) (p : String)
    (h : ∀ ch ∈ bp.data, ch ≠ '?') : sasBlobPath (mkSasUrl bp e p) = bp := by
  have hdata : (mkSasUrl bp e p).data
      = blobUrlBase.data ++ (bp.data ++ ('?' :: ("sv=model&sp=" ++ p ++ "&se=" ++ toString e).data)) := by
    unfold mkSasUrl
    rw [strDataAppend, strDataAppend, strDataAppend]
    simp
  unfold sasBlobPath
  rw [hdata]
  have hlen : blobUrlBase.length = blobUrlBase.data.length := rfl
  rw [hlen, drop_append_self, takeUntilQ_append _ _ h, mkData]

/-- A well-formed path component: nonempty, free of path separators and of
`'?'` (which would collide with the SAS query delimiter). -/
def okComp (s : String) : Prop :=
  s ≠ "" ∧ ∀ ch ∈ s.data, ch ≠ '/' ∧ ch ≠ '\\' ∧ ch ≠ '?'

instance (s : String) : Decidable (okComp s) := by
  unfold okComp
  infer_instance

/-- A valid `(clientId, documentType, fileName)` triple. -/
def ValidTriple (c d f : String) : Prop := okComp c ∧ okComp d ∧ okComp f

instance (c d f : String) : Decidable (ValidTriple c d f) := by
  unfold ValidTriple
  infer_instance

theorem blobPath_noQ (c d f : String) (h : ValidTriple c d f) :
    ∀ ch ∈ (blobPathOf c d f).data, ch ≠ '?' := by
  obtain ⟨⟨-, hc⟩, ⟨-, hd⟩, ⟨-, hf⟩⟩ := h
  intro ch hm
  unfold blobPathOf at hm
  have hcase : ch ∈ c.data ∨ ch ∈ d.data ∨ ch ∈ f.data ∨ ch = '/' := by
    simp only [strDataAppend, List.mem_append, List.mem_singleton] at hm
    tauto
  rcases hcase with h1 | h1 | h1 | h1
  · exact (hc ch h1).2.2
  · exact (hd ch h1).2.2
  · exact (hf ch h1).2.2
  · rw [h1]
    decide

theorem generateSecureUrl_of_core_ok (mode : Mode) (st : Storage)
    (c d f : String) (e n : Nat) (u : String)
    (h : generateSecureUrlCore mode st c d f e n = .ok u) :
    generateSecureUrl mode st c d f e n = .ok u := by
  unfold generateSecureUrl
  rw [h]

theorem generateSecureUrl_of_core_error (mode : Mode) (st : Storage)
    (c d f : String) (e n : Nat) (err : StorageErr)
    (h : generateSecureUrlCore mode st c d f e n = .error err) :
    generateSecureUrl mode st c d f e n
      = .error (.wrapped "Failed to generate secure access URL") := by
  unfold generateSecureUrl
  rw [h]

theorem assocRemove_cons (a : String) (v : List Nat) (rest : List (String × List Nat))
    (k' : String) :
    assocRemove ((a, v) :: rest) k'
      = if a = k' then assocRemove rest k' else (a, v) :: assocRemove rest k' := by
  by_cases h : a = k' <;> simp [assocRemove, List.filter, h]

theorem assocLookup_remove_none (l : List (String × List Nat)) (k k' : String)
    (h : assocLookup l k = none) : assocLookup (assocRemove l k') k = none := by
  induction l with
  | nil => rfl
  | cons e rest ih =>
    cases e with
    | mk a v =>
      by_cases hak : a = k
      · simp [assocLookup, hak] at h
      · rw [assocLookup] at h
        rw [if_neg hak] at h
        rw [assocRemove_cons]
        by_cases hak' : a = k'
        · rw [if_pos hak']
          exact ih h
        · rw [if_neg hak']
          rw [assocLookup, if_neg hak]
          exact ih h

/-! ### C1 — upload/secure-URL round trip -/

/-- C1: for every valid `(clientId, documentType, fileName)` triple and byte
buffer, `uploadFile` followed immediately by `generateSecureUrl` succeeds in
both storage modes, and reading the returned URL/path yields exactly the
uploaded bytes. -/
theorem uploadFile_generateSecureUrl_roundTrip :
    ∀ (mode : Mode) (st : Storage) (c d f : String) (content : List Nat)
      (ct : String) (exp now : Nat),
    ValidTriple c d f →
    ∃ res url,
      (uploadFile mode st c d f content ct).1 = .ok res
      ∧ generateSecureUrl mode (uploadFile mode st c d f content ct).2 c d f exp now = .ok url
      ∧ readUrl (uploadFile mode st c d f content ct).2 url = some content := by
  intro mode st c d f content ct exp now hv
  cases mode with
  | loc =>
    refine ⟨⟨pathJoin [localStorageRoot, c, d, f], blobPathOf c d f⟩,
      pathJoin [localStorageRoot, c, d, f], rfl, ?_, ?_⟩
    · apply generateSecureUrl_of_core_ok
      simp [uploadFile, generateSecureUrlCore, fsExists, fsLookup, assocLookup]
    · have hhttp : strStartsWith "http" (pathJoin [localStorageRoot, c, d, f]) = false := by
        rw [pathJoin_local_eq]
        exact not_http_of_uploads _
      simp [readUrl, hhttp, uploadFile, fsLookup, assocLookup]
  | cloud =>
    refine ⟨⟨blobUrlOf (blobPathOf c d f), blobPathOf c d f⟩,
      mkSasUrl (blobPathOf c d f) (now + exp * 1000) "r", rfl, ?_, ?_⟩
    · apply generateSecureUrl_of_core_ok
      simp [uploadFile, generateSecureUrlCore, blobExists, blobLookup, assocLookup]
    · rw [readUrl]
      rw [sas_is_http]
      simp only [if_true]
      rw [sasBlobPath_mkSasUrl _ _ _ (blobPath_noQ c d f hv)]
      simp [uploadFile, blobLookup, assocLookup]

/-- Witness for C1 at a concrete upload in local mode. -/
theorem uploadFile_generateSecureUrl_roundTrip_witness :
    ∃ res url,
      (uploadFile .loc ⟨[], []⟩ "c1" "nic_proof" "a.pdf" [5, 6] "application/pdf").1 = .ok res
      ∧ generateSecureUrl .loc
          (uploadFile .loc ⟨[], []⟩ "c1" "nic_proof" "a.pdf" [5, 6] "application/pdf").2
          "c1" "nic_proof" "a.pdf" 900 0 = .ok url
      ∧ readUrl (uploadFile .loc ⟨[], []⟩ "c1" "nic_proof" "a.pdf" [5, 6] "application/pdf").2
          url = some [5, 6] :=
  uploadFile_generateSecureUrl_roundTrip .loc ⟨[], []⟩ "c1" "nic_proof" "a.pdf"
    [5, 6] "application/pdf" 900 0 (by decide)

/-! ### C2 — deleteFile then generateSecureUrl -/

/-- C2 counterexample: in cloud mode with a leftover local file for the same
triple, `deleteFile` returns true (the blob is deleted) yet the subsequent
`generateSecureUrl` SUCCEEDS — the degraded fallback resolves to the local
file, whose bytes even differ from the deleted blob's — instead of failing
with a not-found outcome. -/
theorem deleteFile_then_generateSecureUrl_stale_fallback :
    (deleteFile .cloud
        ⟨[("uploads/c1/nic_proof/a.pdf", [1, 2, 3])], [("c1/nic_proof/a.pdf", [9, 9])]⟩
        "c1" "nic_proof" "a.pdf").1 = .ok true
    ∧ generateSecureUrl .cloud
        (deleteFile .cloud
          ⟨[("uploads/c1/nic_proof/a.pdf", [1, 2, 3])], [("c1/nic_proof/a.pdf", [9, 9])]⟩
          "c1" "nic_proof" "a.pdf").2
        "c1" "nic_proof" "a.pdf" 900 0 = .ok "uploads/c1/nic_proof/a.pdf"
    ∧ readUrl
        (deleteFile .cloud
          ⟨[("uploads/c1/nic_proof/a.pdf", [1, 2, 3])], [("c1/nic_proof/a.pdf", [9, 9])]⟩
          "c1" "nic_proof" "a.pdf").2
        "uploads/c1/nic_proof/a.pdf" = some [1, 2, 3] := by
  decide

/-- No local file is available for the degraded fallback search of the
triple: neither fallback path exists and the client/docType directory lists
no files. -/
def NoLocalFallback (st : Storage) (c d f : String) : Prop :=
  fsExists st (pathJoin [localStorageRoot, c, d, f]) = false
  ∧ fsExists st (pathJoin ["uploads", c, d, f]) = false
  ∧ dirFiles st (pathJoin ["uploads", c, d]) = []

instance (st : Storage) (c d f : String) : Decidable (NoLocalFallback st c d f) := by
  unfold NoLocalFallback
  infer_instance

/-- C2 amended: after `deleteFile` returns true, a subsequent
`generateSecureUrl` for the same triple fails as not-found — unconditionally
in local mode, and in cloud mode provided no local file is left for the
degraded fallback search to pick up (otherwise the fallback can resolve to
stale or substitute local content, as the counterexample shows). The
not-found is raised inside the service and surfaces to callers wrapped as
the generic secure-URL failure. -/
theorem deleteFile_then_generateSecureUrl_notFound_when_noLocalFallback :
    ∀ (mode : Mode) (st : Storage) (c d f : String) (exp now : Nat),
    (deleteFile mode st c d f).1 = .ok true →
    (mode = .cloud → NoLocalFallback (deleteFile mode st c d f).2 c d f) →
    ∃ msg,
      generateSecureUrlCore mode (deleteFile mode st c d f).2 c d f exp now
        = .error (.fileNotFound msg)
      ∧ generateSecureUrl mode (deleteFile mode st c d f).2 c d f exp now
        = .error (.wrapped "Failed to generate secure access URL") := by
  intro mode st c d f exp now hdel hnl
  cases mode with
  | loc =>
    refine ⟨"File not found", ?_, ?_⟩
    · by_cases h1 : fsExists st (pathJoin [localStorageRoot, c, d, f])
      · simp only [deleteFile, h1, if_true]
        simp [generateSecureUrlCore, fsExists, fsLookup, assocLookup_remove_self]
      · by_cases h2 : hasSep f
        · by_cases h3 : fsExists st (pathJoin [localStorageRoot, c, d, lastSegment f])
          · have h1n : fsLookup st (pathJoin [localStorageRoot, c, d, f]) = none := by
              unfold fsExists at h1
              exact Option.not_isSome_iff_eq_none.mp h1
            simp only [deleteFile, h1, if_false, h2, if_true, h3]
            simp [generateSecureUrlCore, fsExists, fsLookup,
              assocLookup_remove_none _ _ _ h1n]
          · simp [deleteFile, h1, h2, h3] at hdel
        · simp [deleteFile, h1, h2] at hdel
    · obtain ⟨msg, hc, -⟩ :
        ∃ msg, generateSecureUrlCore .loc (deleteFile .loc st c d f).2 c d f exp now
          = .error (.fileNotFound msg) ∧ True := by
        by_cases h1 : fsExists st (pathJoin [localStorageRoot, c, d, f])
        · refine ⟨"File not found", ?_, trivial⟩
          simp only [deleteFile, h1, if_true]
          simp [generateSecureUrlCore, fsExists, fsLookup, assocLookup_remove_self]
        · by_cases h2 : hasSep f
          · by_cases h3 : fsExists st (pathJoin [localStorageRoot, c, d, lastSegment f])
            · have h1n : fsLookup st (pathJoin [localStorageRoot, c, d, f]) = none := by
                unfold fsExists at h1
                exact Option.not_isSome_iff_eq_none.mp h1
              refine ⟨"File not found", ?_, trivial⟩
              simp only [deleteFile, h1, if_false, h2, if_true, h3]
              simp [generateSecureUrlCore, fsExists, fsLookup,
                assocLookup_remove_none _ _ _ h1n]
            · simp [deleteFile, h1, h2, h3] at hdel
          · simp [deleteFile, h1, h2] at hdel
      exact generateSecureUrl_of_core_error _ _ _ _ _ _ _ _ hc
  | cloud =>
    obtain ⟨hl1, hl2, hl3⟩ := hnl rfl
    by_cases h1 : blobExists st (blobPathOf c d f)
    · have hb : blobExists (deleteFile .cloud st c d f).2 (blobPathOf c d f) = false := by
        simp only [deleteFile, h1, if_true]
        simp [blobExists, blobLookup, assocLookup_remove_self]
      have hcore : generateSecureUrlCore .cloud (deleteFile .cloud st c d f).2 c d f exp now
          = .error (.fileNotFound ("File not found: " ++ f)) := by
        simp only [generateSecureUrlCore, hb, Bool.false_eq_true, if_false, hl1, hl2, hl3]
        by_cases hde : dirExists (deleteFile .cloud st c d f).2 (pathJoin ["uploads", c, d])
        · simp [hde]
        · simp [hde]
      exact ⟨_, hcore, generateSecureUrl_of_core_error _ _ _ _ _ _ _ _ hcore⟩
    · simp [deleteFile, h1] at hdel

/-- Witness for C2's amended theorem: cloud mode with no leftover local
files. -/
theorem deleteFile_then_generateSecureUrl_notFound_witness :
    ∃ msg,
      generateSecureUrlCore .cloud
        (deleteFile .cloud ⟨[], [("c1/nic_proof/a.pdf", [1, 2])]⟩ "c1" "nic_proof" "a.pdf").2
        "c1" "nic_proof" "a.pdf" 900 0 = .error (.fileNotFound msg)
      ∧ generateSecureUrl .cloud
        (deleteFile .cloud ⟨[], [("c1/nic_proof/a.pdf", [1, 2])]⟩ "c1" "nic_proof" "a.pdf").2
        "c1" "nic_proof" "a.pdf" 900 0
        = .error (.wrapped "Failed to generate secure access URL") :=
  deleteFile_then_generateSecureUrl_notFound_when_noLocalFallback .cloud
    ⟨[], [("c1/nic_proof/a.pdf", [1, 2])]⟩ "c1" "nic_proof" "a.pdf" 900 0
    (by decide) (fun _ => by decide)

/-! ### C3 — cloud-mode degraded fallback order -/

theorem dirFiles_nil_of_not_dirExists (st : Storage) (dir : String)
    (h : dirExists st dir = false) : dirFiles st dir = [] := by
  unfold dirExists at h
  unfold dirFiles
  revert h
  induction st.files with
  | nil => intro _; rfl
  | cons e rest ih =>
    intro h
    rw [List.any_cons] at h
    rw [Bool.or_eq_false_iff] at h
    obtain ⟨h1, h2⟩ := h
    unfold underDir leadsWith at h1
    have h1n : dropLead (dir ++ "/").data e.1.data = none := by
      cases hx : dropLead (dir ++ "/").data e.1.data with
      | none => rfl
      | some v => rw [hx] at h1; simp at h1
    rw [List.filterMap_cons]
    rw [h1n]
    exact ih h2

/-- C3: in cloud mode `generateSecureUrl` behaves exactly as the spec's
ordered strategy chain: when the blob exists it mints a read-only (`"r"`),
time-boxed (`now + expirySeconds * 1000`) signed URL; when it does not, it
returns the first match of [equivalent local path, same-named file under the
local uploads client/docType directory, any file in that directory] and
fails as not-found only when none of these exists. -/
theorem generateSecureUrl_cloud_fallback_order :
    ∀ (st : Storage) (c d f : String) (exp now : Nat),
    generateSecureUrlCore .cloud st c d f exp now = specDegradedResolve st c d f exp now := by
  intro st c d f exp now
  by_cases hb : blobExists st (blobPathOf c d f)
  · simp [generateSecureUrlCore, specDegradedResolve, hb]
  · by_cases h1 : fsExists st (pathJoin [localStorageRoot, c, d, f])
    · simp [generateSecureUrlCore, specDegradedResolve, specFallbackStrategies, firstSome,
        hb, h1]
    · by_cases h2 : fsExists st (pathJoin ["uploads", c, d, f])
      · simp [generateSecureUrlCore, specDegradedResolve, specFallbackStrategies, firstSome,
          hb, h1, h2]
      · cases h3 : dirFiles st (pathJoin ["uploads", c, d]) with
        | nil =>
          by_cases hde : dirExists st (pathJoin ["uploads", c, d])
          · simp [generateSecureUrlCore, specDegradedResolve, specFallbackStrategies, firstSome,
              hb, h1, h2, h3, hde]
          · simp [generateSecureUrlCore, specDegradedResolve, specFallbackStrategies, firstSome,
              hb, h1, h2, h3, hde]
        | cons x l =>
          have hde : dirExists st (pathJoin ["uploads", c, d]) = true := by
            by_contra hcon
            rw [Bool.not_eq_true] at hcon
            rw [dirFiles_nil_of_not_dirExists st _ hcon] at h3
            exact List.noConfusion h3
          simp [generateSecureUrlCore, specDegradedResolve, specFallbackStrategies, firstSome,
            hb, h1, h2, h3, hde]

/-! ### Facts about the connection retry loop -/

theorem connectLoop_zero (oracle : Nat → Except DbErr Unit) (d : Nat) (le : Option DbErr)
    (s : DbState) :
    connectLoop oracle 0 d le s
      = ⟨.error (le.getD defaultConnectErr), { s with connectionPromise := none }, 0, []⟩ := rfl

theorem connectLoop_succ (oracle : Nat → Except DbErr Unit) (rem d : Nat) (le : Option DbErr)
    (s : DbState) :
    connectLoop oracle (rem + 1) d le s
      = match oracle 0 with
        | .ok _ => ⟨.ok (), ⟨true, none, some (.ok ())⟩, 1, []⟩
        | .error e =>
          if rem = 0 then ⟨.error e, ⟨false, some e, none⟩, 1, []⟩
          else
            let rest := connectLoop (fun i => oracle (i + 1)) rem (d * 2) (some e)
              ⟨false, some e, some (.error e)⟩
            ⟨rest.result, rest.state, rest.attemptsStarted + 1, d :: rest.delays⟩ := rfl

theorem connectLoop_att_le :
    ∀ (rem : Nat) (oracle : Nat → Except DbErr Unit) (d : Nat) (le : Option DbErr) (s : DbState),
    (connectLoop oracle rem d le s).attemptsStarted ≤ rem := by
  intro rem
  induction rem with
  | zero => intro oracle d le s; rw [connectLoop_zero]
  | succ m ih =>
    intro oracle d le s
    rw [connectLoop_succ]
    cases horacle : oracle 0 with
    | ok u => simp
    | error e =>
      by_cases hm : m = 0
      · simp [hm]
      · simp only [hm, if_false]
        have := ih (fun i => oracle (i + 1)) (d * 2) (some e) ⟨false, some e, some (.error e)⟩
        omega

theorem connectLoop_att_ge1 :
    ∀ (rem : Nat) (oracle : Nat → Except DbErr Unit) (d : Nat) (le : Option DbErr) (s : DbState),
    1 ≤ rem → 1 ≤ (connectLoop oracle rem d le s).attemptsStarted := by
  intro rem oracle d le s hrem
  cases rem with
  | zero => omega
  | succ m =>
    rw [connectLoop_succ]
    cases horacle : oracle 0 with
    | ok u => simp
    | error e =>
      by_cases hm : m = 0
      · simp [hm]
      · simp only [hm, if_false]
        omega

theorem connectLoop_success :
    ∀ (k rem : Nat) (oracle : Nat → Except DbErr Unit) (d : Nat) (le : Option DbErr) (s : DbState),
    k < rem → (∀ j, j < k → isErr (oracle j) = true) → oracle k = .ok () →
    connectLoop oracle rem d le s
      = ⟨.ok (), ⟨true, none, some (.ok ())⟩, k + 1, geomDelays d k⟩ := by
  intro k
  induction k with
  | zero =>
    intro rem oracle d le s hlt _ hok
    cases rem with
    | zero => omega
    | succ m =>
      rw [connectLoop_succ]
      rw [hok]
      rfl
  | succ k ih =>
    intro rem oracle d le s hlt hfail hok
    cases rem with
    | zero => omega
    | succ m =>
      have h0 : isErr (oracle 0) = true := hfail 0 (Nat.succ_pos k)
      cases horacle : oracle 0 with
      | ok u => rw [horacle] at h0; simp [isErr] at h0
      | error e =>
        have hm : ¬ m = 0 := by omega
        rw [connectLoop_succ]
        rw [horacle]
        simp only [hm, if_false]
        rw [ih m (fun i => oracle (i + 1)) (d * 2) (some e) ⟨false, some e, some (.error e)⟩
          (by omega) (fun j hj => hfail (j + 1) (by omega)) hok]
        rfl

theorem connectLoop_allfail :
    ∀ (rem : Nat) (oracle : Nat → Except DbErr Unit) (d : Nat) (le : Option DbErr) (s : DbState),
    1 ≤ rem → (∀ j, j < rem → isErr (oracle j) = true) →
    connectLoop oracle rem d le s
      = ⟨.error (errOf (oracle (rem - 1))), ⟨false, some (errOf (oracle (rem - 1))), none⟩,
          rem, geomDelays d (rem - 1)⟩ := by
  intro rem
  induction rem with
  | zero => intro oracle d le s h1; omega
  | succ m ih =>
    intro oracle d le s _ hfail
    have h0 : isErr (oracle 0) = true := hfail 0 (Nat.succ_pos m)
    cases horacle : oracle 0 with
    | ok u => rw [horacle] at h0; simp [isErr] at h0
    | error e =>
      cases m with
      | zero =>
        rw [connectLoop_succ]
        rw [horacle]
        simp [errOf, horacle, geomDelays]
      | succ m' =>
        rw [connectLoop_succ]
        rw [horacle]
        have hm : ¬ (m' + 1) = 0 := by omega
        simp only [hm, if_false]
        rw [ih (fun i => oracle (i + 1)) (d * 2) (some e) ⟨false, some e, some (.error e)⟩
          (by omega) (fun j hj => hfail (j + 1) (by omega))]
        rfl

theorem getConnection_eq_loop (retries d : Nat) (oracle : Nat → Except DbErr Unit)
    (s : DbState) (h1 : ¬(s.isConnected = true ∧ s.connectionError = none))
    (h2 : s.connectionPromise = none) :
    getConnection retries d oracle s = connectLoop oracle retries d none s := by
  unfold getConnection
  rw [if_neg h1, h2]

/-! ### C4 — getConnection retry with exponential backoff -/

/-- C4: with `retries ≥ 1`, starting disconnected with no attempt in flight,
`getConnection` starts between 1 and `retries` connect attempts; if the
first success is attempt `k` it returns the pool with the connected flag set
and the error cleared after waiting the doubling delays `d, 2d, …, 2^(k-1)d`
between consecutive attempts; if all `retries` attempts fail it throws the
last attempt's error. -/
theorem getConnection_retry_backoff :
    ∀ (retries d : Nat) (oracle : Nat → Except DbErr Unit) (s : DbState),
    1 ≤ retries →
    ¬(s.isConnected = true ∧ s.connectionError = none) →
    s.connectionPromise = none →
    (1 ≤ (getConnection retries d oracle s).attemptsStarted
      ∧ (getConnection retries d oracle s).attemptsStarted ≤ retries)
    ∧ (∀ k, k < retries → (∀ j, j < k → isErr (oracle j) = true) → oracle k = .ok () →
        getConnection retries d oracle s
          = ⟨.ok (), ⟨true, none, some (.ok ())⟩, k + 1, geomDelays d k⟩)
    ∧ ((∀ j, j < retries → isErr (oracle j) = true) →
        getConnection retries d oracle s
          = ⟨.error (errOf (oracle (retries - 1))),
              ⟨false, some (errOf (oracle (retries - 1))), none⟩,
              retries, geomDelays d (retries - 1)⟩) := by
  intro retries d oracle s hr h1 h2
  rw [getConnection_eq_loop retries d oracle s h1 h2]
  refine ⟨⟨connectLoop_att_ge1 retries oracle d none s hr,
    connectLoop_att_le retries oracle d none s⟩, ?_, ?_⟩
  · intro k hk hfail hok
    exact connectLoop_success k retries oracle d none s hk hfail hok
  · intro hfail
    exact connectLoop_allfail retries oracle d none s hr hfail

/-- Connect-attempt oracle failing once with a timeout, then succeeding. -/
def retryOracleW : Nat → Except DbErr Unit :=
  fun i => if i = 0 then .error ⟨"socket timeout", true⟩ else .ok ()

/-- Witness for C4: one timeout then success gives two attempts, one 1000 ms
wait, a connected final state and the pool returned. -/
theorem getConnection_retry_backoff_witness :
    getConnection 3 1000 retryOracleW ⟨false, none, none⟩
      = ⟨.ok (), ⟨true, none, some (.ok ())⟩, 2, [1000]⟩ := by
  have h := (getConnection_retry_backoff 3 1000 retryOracleW ⟨false, none, none⟩
    (by decide) (by decide) rfl).2.1 1 (by decide) (by decide) (by decide)
  rw [h]
  rfl

/-! ### C5 — error classification in getConnection -/

/-- An authentication failure: decidedly not a connectivity-class error. -/
def nontransientErr : DbErr := ⟨"Login failed for user sa", false⟩

/-- C5 counterexample: `getConnection` retries a non-transient
(authentication-class) error just like any other — three attempts and two
backoff waits instead of propagating it after the first failed attempt. -/
theorem getConnection_retries_nontransient_error :
    nontransientErr.transient = false
    ∧ (getConnection 3 1000 (fun _ => .error nontransientErr)
        ⟨false, none, none⟩).attemptsStarted = 3
    ∧ (getConnection 3 1000 (fun _ => .error nontransientErr)
        ⟨false, none, none⟩).delays = [1000, 2000]
    ∧ (getConnection 3 1000 (fun _ => .error nontransientErr)
        ⟨false, none, none⟩).result = .error nontransientErr := by
  decide

/-- C5 amended: `getConnection` performs no error classification at all —
every persistently failing error, transient or not, is retried up to the
full attempt budget and then propagated as the last error. -/
theorem getConnection_uniform_retry :
    ∀ (retries d : Nat) (s : DbState) (e : DbErr),
    1 ≤ retries →
    ¬(s.isConnected = true ∧ s.connectionError = none) →
    s.connectionPromise = none →
    (getConnection retries d (fun _ => .error e) s).attemptsStarted = retries
    ∧ (getConnection retries d (fun _ => .error e) s).result = .error e := by
  intro retries d s e hr h1 h2
  rw [getConnection_eq_loop retries d _ s h1 h2]
  rw [connectLoop_allfail retries (fun _ => .error e) d none s hr (fun j hj => rfl)]
  exact ⟨rfl, rfl⟩

/-- Witness for C5's amended theorem at a concrete non-transient error. -/
theorem getConnection_uniform_retry_witness :
    (getConnection 2 500 (fun _ => .error ⟨"schema error", false⟩)
      ⟨false, none, none⟩).attemptsStarted = 2
    ∧ (getConnection 2 500 (fun _ => .error ⟨"schema error", false⟩)
      ⟨false, none, none⟩).result = .error ⟨"schema error", false⟩ :=
  getConnection_uniform_retry 2 500 ⟨false, none, none⟩ ⟨"schema error", false⟩
    (by decide) (by decide) rfl

/-! ### C7 — ensureConnection failure handling -/

theorem ensureConnection_eq (oracle : Nat → Except DbErr Unit) (q : Option DbErr)
    (s : DbState) :
    ensureConnection oracle q s
      = match (getConnection 3 1000 oracle s).result with
        | .error e => (.error e, ⟨false, some e, none⟩)
        | .ok _ =>
          match q with
          | none => (.ok (), (getConnection 3 1000 oracle s).state)
          | some e => (.error e, ⟨false, some e, none⟩) := rfl

/-- C7: whenever `ensureConnection` fails — because `getConnection` threw or
because the `SELECT 1` liveness query failed — it leaves the state
disconnected with the error recorded and the cached in-flight promise
cleared, rethrows that same error, and any subsequent `getConnection` call
on the resulting state starts at least one fresh connect attempt instead of
returning from the cache. -/
theorem ensureConnection_failure_resets_state :
    ∀ (oracle : Nat → Except DbErr Unit) (q : Option DbErr) (s : DbState) (e : DbErr),
    (ensureConnection oracle q s).1 = .error e →
    (ensureConnection oracle q s).2.isConnected = false
    ∧ (ensureConnection oracle q s).2.connectionError = some e
    ∧ (ensureConnection oracle q s).2.connectionPromise = none
    ∧ ((getConnection 3 1000 oracle s).result = .error e
        ∨ ((getConnection 3 1000 oracle s).result = .ok () ∧ q = some e))
    ∧ (∀ (retries d : Nat) (oracle2 : Nat → Except DbErr Unit),
        1 ≤ retries →
        1 ≤ (getConnection retries d oracle2 (ensureConnection oracle q s).2).attemptsStarted) := by
  intro oracle q s e h
  rw [ensureConnection_eq] at h ⊢
  cases hg : (getConnection 3 1000 oracle s).result with
  | error e2 =>
    rw [hg] at h
    have he : e2 = e := by simpa using h
    subst he
    refine ⟨rfl, rfl, rfl, Or.inl rfl, ?_⟩
    intro retries d oracle2 hr
    show 1 ≤ (getConnection retries d oracle2 ⟨false, some e2, none⟩).attemptsStarted
    rw [getConnection_eq_loop retries d oracle2 ⟨false, some e2, none⟩ (by simp) rfl]
    exact connectLoop_att_ge1 retries oracle2 d none _ hr
  | ok u =>
    rw [hg] at h
    cases q with
    | none => simp at h
    | some e2 =>
      have he : e2 = e := by simpa using h
      subst he
      refine ⟨rfl, rfl, rfl, Or.inr ⟨rfl, rfl⟩, ?_⟩
      intro retries d oracle2 hr
      show 1 ≤ (getConnection retries d oracle2 ⟨false, some e2, none⟩).attemptsStarted
      rw [getConnection_eq_loop retries d oracle2 ⟨false, some e2, none⟩ (by simp) rfl]
      exact connectLoop_att_ge1 retries oracle2 d none _ hr

/-- Witness for C7: the connect succeeds but the `SELECT 1` liveness query
fails, so `ensureConnection` resets to disconnected and the next caller
retries afresh. -/
theorem ensureConnection_failure_resets_state_witness :
    (ensureConnection (fun _ => .ok ()) (some ⟨"connection reset", true⟩)
      ⟨false, none, none⟩).2.isConnected = false
    ∧ (ensureConnection (fun _ => .ok ()) (some ⟨"connection reset", true⟩)
      ⟨false, none, none⟩).2.connectionError = some ⟨"connection reset", true⟩
    ∧ (ensureConnection (fun _ => .ok ()) (some ⟨"connection reset", true⟩)
      ⟨false, none, none⟩).2.connectionPromise = none
    ∧ ((getConnection 3 1000 (fun _ => .ok ()) ⟨false, none, none⟩).result
          = .error ⟨"connection reset", true⟩
        ∨ ((getConnection 3 1000 (fun _ => .ok ()) ⟨false, none, none⟩).result = .ok ()
            ∧ (some ⟨"connection reset", true⟩ : Option DbErr) = some ⟨"connection reset", true⟩))
    ∧ (∀ (retries d : Nat) (oracle2 : Nat → Except DbErr Unit),
        1 ≤ retries →
        1 ≤ (getConnection retries d oracle2
              (ensureConnection (fun _ => .ok ()) (some ⟨"connection reset", true⟩)
                ⟨false, none, none⟩).2).attemptsStarted) :=
  ensureConnection_failure_resets_state (fun _ => .ok ())
    (some ⟨"connection reset", true⟩) ⟨false, none, none⟩
    ⟨"connection reset", true⟩ (by decide)

/-! ### C6 — concurrent getConnection collapsing -/

theorem mem_of_getq {α : Type} (l : List α) (i : Nat) (x : α) (h : l[i]? = some x) : x ∈ l := by
  induction l generalizing i with
  | nil => simp at h
  | cons a rest ih =>
    cases i with
    | zero => simp at h; simp [h]
    | succ j =>
      simp only [List.getElem?_cons_succ] at h
      exact List.mem_cons_of_mem a (ih j h)

theorem mem_of_set {α : Type} (l : List α) (i : Nat) (b x : α) (h : x ∈ l.set i b) :
    x ∈ l ∨ x = b := by
  induction l generalizing i with
  | nil => simp [List.set] at h
  | cons a rest ih =>
    cases i with
    | zero =>
      rw [List.set] at h
      rcases List.mem_cons.mp h with h1 | h1
      · right; exact h1
      · left; exact List.mem_cons_of_mem a h1
    | succ j =>
      rw [List.set] at h
      rcases List.mem_cons.mp h with h1 | h1
      · left; simp [h1]
      · rcases ih j h1 with h2 | h2
        · left; exact List.mem_cons_of_mem a h2
        · right; exact h2

theorem lookupRes_true_of_noFalse (l : List (Nat × Bool)) (h : ∀ p ∈ l, p.2 = true)
    (a : Nat) (b : Bool) (hl : lookupRes l a = some b) : b = true := by
  induction l with
  | nil => simp [lookupRes] at hl
  | cons e rest ih =>
    cases e with
    | mk k v =>
      rw [lookupRes] at hl
      by_cases hk : k = a
      · rw [if_pos hk] at hl
        have hv : v = b := by injection hl
        rw [← hv]
        exact h (k, v) (by simp)
      · rw [if_neg hk] at hl
        exact ih (fun p hp => h p (List.mem_cons_of_mem _ hp)) hl

/-- Invariant: while no attempt has ever failed, at most one attempt has
been started, and the cached promise witnesses it. -/
def CollapseInv (s : PoolSys) : Prop :=
  s.started ≤ 1
  ∧ (s.promiseVal = none → s.started = 0)
  ∧ (∀ p ∈ s.resolved, p.2 = true)
  ∧ (∀ ph ∈ s.callers, ∀ rem d, ph ≠ .sleeping rem d)

theorem applyEv_inv (s : PoolSys) (e : PoolEv) (hinv : CollapseInv s)
    (hok : evOk e = true) : CollapseInv (applyEv s e) := by
  obtain ⟨hle, hpn, hres, hsl⟩ := hinv
  cases e with
  | resolve a ok =>
    cases ok with
    | false => simp [evOk] at hok
    | true =>
      by_cases hc : a < s.started ∧ lookupRes s.resolved a = none
      · have happ : applyEv s (.resolve a true)
            = { s with resolved := (a, true) :: s.resolved } := by
          simp [applyEv, hc]
        rw [happ]
        refine ⟨hle, hpn, ?_, hsl⟩
        intro p hp
        rcases List.mem_cons.mp hp with h1 | h1
        · rw [h1]
        · exact hres p h1
      · have happ : applyEv s (.resolve a true) = s := by simp [applyEv, hc]
        rw [happ]
        exact ⟨hle, hpn, hres, hsl⟩
  | step i =>
    cases hget : s.callers[i]? with
    | none =>
      have happ : applyEv s (.step i) = s := by simp [applyEv, hget]
      rw [happ]
      exact ⟨hle, hpn, hres, hsl⟩
    | some ph =>
      have hmem : ph ∈ s.callers := mem_of_getq _ _ _ hget
      have hnosleep : ∀ (l : List CallerPhase) (ph' : CallerPhase),
          (∀ x ∈ l, ∀ rem d, x ≠ .sleeping rem d) →
          (∀ rem d, ph' ≠ .sleeping rem d) →
          ∀ x ∈ l.set i ph', ∀ rem d, x ≠ .sleeping rem d := by
        intro l ph' hl hph' x hx rem d
        rcases mem_of_set _ _ _ _ hx with h1 | h1
        · exact hl x h1 rem d
        · rw [h1]; exact hph' rem d
      cases ph with
      | ready =>
        by_cases hcon : (s.isConnected && !s.hasError) = true
        · have happ : applyEv s (.step i)
              = { s with callers := s.callers.set i (.done true) } := by
            simp [applyEv, hget, stepCaller, hcon]
          rw [happ]
          exact ⟨hle, hpn, hres, hnosleep _ _ hsl (fun rem d => by simp)⟩
        · cases hpv : s.promiseVal with
          | some p =>
            have happ : applyEv s (.step i)
                = { s with callers := s.callers.set i (.awaitingShared p) } := by
              simp [applyEv, hget, stepCaller, hcon, hpv]
            rw [happ]
            refine ⟨hle, ?_, hres, hnosleep _ _ hsl (fun rem d => by simp)⟩
            intro hnone
            exact hpn hnone
          | none =>
            have hz : s.started = 0 := hpn hpv
            have happ : applyEv s (.step i)
                = { s with
                    callers := s.callers.set i
                      (CallerPhase.awaitingOwn s.started (retriesConst - 1) delayConst),
                    started := s.started + 1,
                    promiseVal := some s.started } := by
              simp [applyEv, hget, stepCaller, hcon, hpv, startAttempt]
            rw [happ]
            refine ⟨by simp [hz], ?_, hres, hnosleep _ _ hsl (fun rem d => by simp)⟩
            intro hnone
            simp at hnone
      | awaitingShared p =>
        cases hlr : lookupRes s.resolved p with
        | none =>
          have happ : applyEv s (.step i)
              = { s with callers := s.callers.set i (.awaitingShared p) } := by
            simp [applyEv, hget, stepCaller, hlr]
          rw [happ]
          exact ⟨hle, hpn, hres, hnosleep _ _ hsl (fun rem d => by simp)⟩
        | some b =>
          have hb : b = true := lookupRes_true_of_noFalse _ hres _ _ hlr
          subst hb
          have happ : applyEv s (.step i)
              = { s with callers := s.callers.set i (.done true) } := by
            simp [applyEv, hget, stepCaller, hlr]
          rw [happ]
          exact ⟨hle, hpn, hres, hnosleep _ _ hsl (fun rem d => by simp)⟩
      | awaitingOwn a rem d =>
        cases hlr : lookupRes s.resolved a with
        | none =>
          have happ : applyEv s (.step i)
              = { s with callers := s.callers.set i (.awaitingOwn a rem d) } := by
            simp [applyEv, hget, stepCaller, hlr]
          rw [happ]
          exact ⟨hle, hpn, hres, hnosleep _ _ hsl (fun rem2 d2 => by simp)⟩
        | some b =>
          have hb : b = true := lookupRes_true_of_noFalse _ hres _ _ hlr
          subst hb
          have happ : applyEv s (.step i)
              = { s with
                  callers := s.callers.set i (.done true),
                  isConnected := true,
                  hasError := false } := by
            simp [applyEv, hget, stepCaller, hlr]
          rw [happ]
          exact ⟨hle, hpn, hres, hnosleep _ _ hsl (fun rem2 d2 => by simp)⟩
      | sleeping rem d => exact absurd rfl (hsl _ hmem rem d)
      | done b =>
        have happ : applyEv s (.step i)
            = { s with callers := s.callers.set i (.done b) } := by
          simp [applyEv, hget, stepCaller]
        rw [happ]
        exact ⟨hle, hpn, hres, hnosleep _ _ hsl (fun rem d => by simp)⟩

theorem runEvents_inv : ∀ (evs : List PoolEv) (s : PoolSys),
    evs.all evOk = true → CollapseInv s → CollapseInv (runEvents s evs) := by
  intro evs
  induction evs with
  | nil => intro s _ h; exact h
  | cons e rest ih =>
    intro s hall hinv
    rw [List.all_cons] at hall
    rw [Bool.and_eq_true] at hall
    exact ih (applyEv s e) hall.2 (applyEv_inv s e hinv hall.1)

theorem initSys_inv (n : Nat) : CollapseInv (initSys n) := by
  refine ⟨by simp [initSys], by intro _; rfl, by intro p hp; simp [initSys] at hp, ?_⟩
  intro ph hph rem d
  have heq := List.eq_of_mem_replicate hph
  rw [heq]
  simp

/-- C6 counterexample: a realizable event-loop schedule with two concurrent
callers — caller 0 starts the attempt, caller 1 awaits it, the attempt
fails, caller 1 starts its own retry while caller 0 wakes from its backoff
sleep and starts another — leaves TWO connect attempts in flight at once. -/
theorem concurrent_getConnection_two_attempts_in_flight :
    inFlight (runEvents (initSys 2)
      [.step 0, .step 1, .resolve 0 false, .step 1, .step 0, .step 0]) = 2
    ∧ (runEvents (initSys 2)
      [.step 0, .step 1, .resolve 0 false, .step 1, .step 0, .step 0]).started = 3 := by
  decide

/-- C6 amended: concurrent `getConnection` calls issued while disconnected
collapse onto one shared connect attempt only as long as no attempt has
failed: along every schedule free of failed resolutions, at most one attempt
is ever started (hence at most one is in flight). After a failure the
callers retry independently and several attempts can be in flight, as the
counterexample schedule shows. -/
theorem getConnection_collapses_until_first_failure :
    ∀ (n : Nat) (sched : List PoolEv), sched.all evOk = true →
    (runEvents (initSys n) sched).started ≤ 1
    ∧ inFlight (runEvents (initSys n) sched) ≤ 1 := by
  intro n sched hok
  have h := runEvents_inv sched (initSys n) hok (initSys_inv n)
  exact ⟨h.1, le_trans (Nat.sub_le _ _) h.1⟩

/-- Witness for C6's amended theorem: two callers, one successful attempt. -/
theorem getConnection_collapses_until_first_failure_witness :
    (runEvents (initSys 2) [.step 0, .step 1, .resolve 0 true, .step 1]).started ≤ 1
    ∧ inFlight (runEvents (initSys 2) [.step 0, .step 1, .resolve 0 true, .step 1]) ≤ 1 :=
  getConnection_collapses_until_first_failure 2 [.step 0, .step 1, .resolve 0 true, .step 1]
    (by decide)

/-! ### C8 — status mapping in the secure document proxy -/

/-- C8 counterexample: with the document absent from every location — the
blob store, both local fallback paths and the client/docType directory —
`generateSecureUrl` raises not-found, and the secure proxy answers **500**
("Error generating secure URL"), not a 404-equivalent: the route cannot
distinguish the not-found from any other storage failure because the
service's catch wraps them all into one generic error. -/
theorem secure_proxy_notFound_maps_to_500 :
    generateSecureUrlCore .cloud ⟨[], []⟩ "c1" "nic_proof" "a.pdf" (15 * 60) 0
      = .error (.fileNotFound "File not found: a.pdf")
    ∧ secureDocumentHandler .cloud ⟨[], []⟩ "c1" "nic_proof" "a.pdf" 0
        (fun _ => .networkError "x")
      = ⟨500, "Error generating secure URL", none⟩ := by
  decide

/-- C8 amended: the secure proxy's actual status mapping — any resolution
failure (including document-absent-after-full-fallback) maps to 500; a
resolved local path serves the file with 200 or answers 404 only when the
file is missing at serve time; a fetch exception maps to 500; and a non-ok
upstream status is forwarded verbatim (so an upstream 404 yields 404). -/
theorem secure_proxy_status_mapping :
    ∀ (mode : Mode) (st : Storage) (c d f : String) (now : Nat)
      (fetch : String → FetchOutcome),
    (∀ err, generateSecureUrl mode st c d f (15 * 60) now = .error err →
        secureDocumentHandler mode st c d f now fetch
          = ⟨500, "Error generating secure URL", none⟩)
    ∧ (∀ url, generateSecureUrl mode st c d f (15 * 60) now = .ok url →
        strStartsWith "http" url = false →
        secureDocumentHandler mode st c d f now fetch
          = match fsLookup st url with
            | none => ⟨404, "Document not found", none⟩
            | some bytes => ⟨200, contentTypeFor url, some bytes⟩)
    ∧ (∀ url m, generateSecureUrl mode st c d f (15 * 60) now = .ok url →
        strStartsWith "http" url = true → fetch url = .networkError m →
        secureDocumentHandler mode st c d f now fetch
          = ⟨500, "Error retrieving document content", none⟩)
    ∧ (∀ url status, generateSecureUrl mode st c d f (15 * 60) now = .ok url →
        strStartsWith "http" url = true → fetch url = .httpError status →
        secureDocumentHandler mode st c d f now fetch
          = ⟨status, "Document not found", none⟩) := by
  intro mode st c d f now fetch
  refine ⟨?_, ?_, ?_, ?_⟩
  · intro err h
    simp [secureDocumentHandler, h]
  · intro url h hh
    simp only [secureDocumentHandler, h, hh]
    simp
  · intro url m h hh hf
    simp [secureDocumentHandler, h, hh, hf]
  · intro url status h hh hf
    simp [secureDocumentHandler, h, hh, hf]

/-- Witness for C8's amended theorem: the 500 on resolution failure and the
forwarded upstream 404. -/
theorem secure_proxy_status_mapping_witness :
    secureDocumentHandler .cloud ⟨[], []⟩ "c1" "nic_proof" "a.pdf" 0
        (fun _ => .networkError "boom")
      = ⟨500, "Error generating secure URL", none⟩
    ∧ secureDocumentHandler .cloud ⟨[], [("c1/nic_proof/a.pdf", [7])]⟩
        "c1" "nic_proof" "a.pdf" 0 (fun _ => .httpError 404)
      = ⟨404, "Document not found", none⟩ :=
  ⟨(secure_proxy_status_mapping .cloud ⟨[], []⟩ "c1" "nic_proof" "a.pdf" 0
      (fun _ => .networkError "boom")).1
      (.wrapped "Failed to generate secure access URL") (by decide),
    (secure_proxy_status_mapping .cloud ⟨[], [("c1/nic_proof/a.pdf", [7])]⟩
      "c1" "nic_proof" "a.pdf" 0 (fun _ => .httpError 404)).2.2.2
      (mkSasUrl "c1/nic_proof/a.pdf" 900000 "r") 404 (by decide) (by decide) (by decide)⟩

/-! ### C9 — public-endpoint token validation -/

/-- C9 counterexample: the token `"1760227200000abcd_ef"` has a
**non-numeric** first segment, yet validation ACCEPTS it — `parseInt` takes
the numeric prefix `1760227200000` and the token proceeds to document
resolution — contradicting the claim that every token with a non-numeric
first segment is rejected. -/
theorem token_validation_accepts_nonNumeric_first_segment :
    validateToken "1760227200000abcd_ef" 1760227200000 = .ok 1760227200000
    ∧ isNumericSeg "1760227200000abcd" = false
    ∧ (jsSplit '_' "1760227200000abcd_ef").headD "" = "1760227200000abcd" := by
  decide

/-- C9 amended: the validation rejects (all with HTTP 403) tokens shorter
than 20 characters, tokens that do not split into exactly two underscore
segments, tokens whose first segment has no parseable leading integer
(`parseInt` NaN), and tokens whose parsed timestamp is older than 30
minutes; every other token — including one whose first segment merely
STARTS with digits — proceeds with the parsed numeric prefix as its
timestamp. -/
theorem token_validation_checks :
    ∀ (t : String) (now : Int),
    (t.length < 20 → validateToken t now = .invalidToken)
    ∧ (20 ≤ t.length → (jsSplit '_' t).length ≠ 2 → validateToken t now = .invalidFormat)
    ∧ (∀ ts, 20 ≤ t.length → (jsSplit '_' t).length = 2 →
        parseInt10 ((jsSplit '_' t).headD "") = some ts → now - ts > tokenWindowMs →
        validateToken t now = .expired)
    ∧ (20 ≤ t.length → (jsSplit '_' t).length = 2 →
        parseInt10 ((jsSplit '_' t).headD "") = none → validateToken t now = .expired)
    ∧ (∀ ts, 20 ≤ t.length → (jsSplit '_' t).length = 2 →
        parseInt10 ((jsSplit '_' t).headD "") = some ts → ¬(now - ts > tokenWindowMs) →
        validateToken t now = .ok ts) := by
  intro t now
  have hlong : 20 ≤ t.length → ¬(t = "" ∨ t.length < 20) := by
    intro h20 hcon
    rcases hcon with h1 | h1
    · rw [h1] at h20
      simp at h20
    · omega
  refine ⟨?_, ?_, ?_, ?_, ?_⟩
  · intro h
    unfold validateToken
    rw [if_pos (Or.inr h)]
  · intro h20 hparts
    unfold validateToken
    rw [if_neg (hlong h20)]
    simp [hparts]
  · intro ts h20 hparts hparse hold
    unfold validateToken
    rw [if_neg (hlong h20)]
    simp only [List.headD_eq_head?_getD] at hparse
    simp [hparts, hparse, hold]
  · intro h20 hparts hparse
    unfold validateToken
    rw [if_neg (hlong h20)]
    simp only [List.headD_eq_head?_getD] at hparse
    simp [hparts, hparse]
  · intro ts h20 hparts hparse hfresh
    unfold validateToken
    rw [if_neg (hlong h20)]
    simp only [List.headD_eq_head?_getD] at hparse
    simp [hparts, hparse, hfresh]

/-- Witness for C9's amended theorem: a stale 24-character token is
rejected as expired. -/
theorem token_validation_checks_witness :
    validateToken "100_aaaaaaaaaaaaaaaaaaaa" 1760227200000 = .expired :=
  (token_validation_checks "100_aaaaaaaaaaaaaaaaaaaa" 1760227200000).2.2.1 100
    (by decide) (by decide) (by decide) (by decide)

/-! ### C10 — minted tokens the public endpoint rejects -/

/-- C10: the public endpoint rejects with 403 every token shorter than 20
characters regardless of timestamp or format, while the issuance endpoint
mints `timestamp_randomBase36Suffix` tokens whose suffix can be shorter
than 6 characters: the draw `Math.random() = 0.5` (`k = 2^52` of `2^53`)
gives suffix `"i"`, so the freshly minted, well-formed (two segments,
numeric timestamp), unexpired 15-character token `"1760227200000_i"` is
rejected by the very endpoint it was minted for. -/
theorem token_mint_validate_mismatch :
    (∀ (t : String) (now : Int), t.length < 20 → validateToken t now = .invalidToken)
    ∧ mintToken 1760227200000 (randomSuffixOf (2 ^ 52)) = "1760227200000_i"
    ∧ (mintToken 1760227200000 (randomSuffixOf (2 ^ 52))).length < 20
    ∧ (jsSplit '_' (mintToken 1760227200000 (randomSuffixOf (2 ^ 52)))).length = 2
    ∧ parseInt10 ((jsSplit '_' (mintToken 1760227200000 (randomSuffixOf (2 ^ 52)))).headD "")
        = some 1760227200000
    ∧ ((1760227200000 : Int) - 1760227200000 ≤ tokenWindowMs)
    ∧ validateToken (mintToken 1760227200000 (randomSuffixOf (2 ^ 52))) 1760227200000
        = .invalidToken := by
  refine ⟨?_, by decide, by decide, by decide, by decide, by decide, by decide⟩
  intro t now h
  unfold validateToken
  rw [if_pos (Or.inr h)]

/-- Witness for C10 at the concrete minted token. -/
theorem token_mint_validate_mismatch_witness :
    validateToken "1760227200000_i" 1760227200000 = .invalidToken :=
  token_mint_validate_mismatch.1 "1760227200000_i" 1760227200000 (by decide)

end InsuranceBackend
